import Mathlib

/-!
Verification of the go-cfclient repository core behaviours.

The Go sources are shallowly embedded:
* `client/security_groups.go`: the paginated `SecurityGroupClient.ListByQuery`
  loop over `/v3/security_groups`.
* `config/config.go`: `Config`, `Validate`, `initConfig`, `discoverAuthConfig`,
  `globalAPIRoot`, `CreateOAuth2TokenSource`, `addLoginHintToURL`,
  `HTTPClient` / `HTTPAuthClient`.
* `operation/manifest.go`: `AppManifest` with optional pointer fields and its
  `With*` setters; the yaml `omitempty` marshalling at the level of emitted keys.

Network exchanges are modelled by passing the backend responses as explicit
arguments (one response value per request the Go code would issue), so every
definition is a pure, executable function of the config plus the wires.
-/

namespace CF

/-! ## Pagination: `SecurityGroupClient.ListByQuery` (client/security_groups.go)

One `Page` is the backend response at one URL of the pagination walk:
its HTTP status code, whether the JSON body decodes into
`resource.ListSecurityGroupResponse`, the decoded `Resources` slice, and the
decoded `Pagination.Next.Href` field (`""` when the link is absent/null).
The loop body `for { ... }` is recursion over the list of successive
responses; running past the end of the list stands for `DoRequest` failing
(no further response from the transport). -/

structure Page (α : Type) where
  statusCode : Nat
  decodeOk : Bool
  resources : List α
  nextHref : String
  deriving DecidableEq, Repr

/-- `fmt.Errorf("error listing security groups, response code: %d", resp.StatusCode)` -/
def statusErrMsg (code : Nat) : String :=
  "error listing security groups, response code: " ++ toString code

/-- `fmt.Errorf("error parsing JSON from list security groups: %w", err)` -/
def decodeErrMsg : String :=
  "error parsing JSON from list security groups"

/-- `fmt.Errorf("error requesting security groups: %w", err)` -/
def transportErrMsg : String :=
  "error requesting security groups"

/-- The `for` loop of `ListByQuery`: check status, decode, append to the
accumulator, break when the parsed next href renders as the empty string,
otherwise continue at the next URL (i.e. with the next response).
(`url.Parse` of the next href fails only on control characters and its error
branch is not modelled; a next href that is absent or empty decodes to `""`,
whose parse renders as `""` and stops the loop.) -/
def listByQueryLoop {α : Type} : List (Page α) → List α → Except String (List α)
  | [], _ => .error transportErrMsg
  | p :: rest, acc =>
    if p.statusCode ≠ 200 then .error (statusErrMsg p.statusCode)
    else if ¬ p.decodeOk then .error decodeErrMsg
    else
      let acc2 := acc ++ p.resources
      if p.nextHref = "" then .ok acc2
      else listByQueryLoop rest acc2

/-- `SecurityGroupClient.ListByQuery`, as a function of the successive page
responses; the accumulator `securityGroups` starts empty (`nil`). -/
def listByQuery {α : Type} (pages : List (Page α)) : Except String (List α) :=
  listByQueryLoop pages []

/-- A well-formed N-page collection: every response is 200 and decodes, every
page but the last carries a non-empty next href, the last an empty one. -/
def isChain {α : Type} : List (Page α) → Bool
  | [] => false
  | [p] => p.statusCode == 200 && p.decodeOk && p.nextHref == ""
  | p :: rest => p.statusCode == 200 && p.decodeOk && p.nextHref != "" && isChain rest

/-! ## URL query escaping (net/url as used by `addLoginHintToURL`)

`config/config.go`'s `addLoginHintToURL` runs `url.Parse`, `u.Query()`,
`q.Add("login_hint", ...)`, `u.RawQuery = q.Encode()`, `u.String()`.
Go strings are byte sequences, and `url.Values` maps key bytes to value
bytes; query keys/values are therefore modelled as `List Nat` of bytes.
A URL string is split at its first `?` into base and raw query (token URLs
carry no fragment, which is not modelled). `Encode` percent-escapes with
Go's `encodeQueryComponent` table (alphanumerics and `-_.~` kept, space to
`+`, anything else `%XX` per byte) and emits keys in sorted byte order. -/

/-- UTF-8 encoding of one character as its list of bytes. -/
def utf8Bytes (c : Char) : List Nat :=
  let n := c.toNat
  if n < 0x80 then [n]
  else if n < 0x800 then [0xC0 + n / 64, 0x80 + n % 64]
  else if n < 0x10000 then [0xE0 + n / 4096, 0x80 + (n / 64) % 64, 0x80 + n % 64]
  else [0xF0 + n / 262144, 0x80 + (n / 4096) % 64, 0x80 + (n / 64) % 64, 0x80 + n % 64]

/-- The bytes of a string (Go's `[]byte(s)`). -/
def strBytes (s : String) : List Nat :=
  (s.toList.map utf8Bytes).flatten

/-- Bytes Go's `encodeQueryComponent` mode leaves unescaped:
`A-Z a-z 0-9 - _ . ~`. -/
def queryUnreserved (b : Nat) : Bool :=
  (65 ≤ b && b ≤ 90) || (97 ≤ b && b ≤ 122) || (48 ≤ b && b ≤ 57)
    || b == 45 || b == 95 || b == 46 || b == 126

/-- Upper-case hex digit, as in Go's `"0123456789ABCDEF"` table. -/
def hexDigitChar (n : Nat) : Char :=
  if n < 10 then Char.ofNat (48 + n) else Char.ofNat (55 + n)

/-- How `url.QueryEscape` renders one byte: kept verbatim, `+` for space,
`%XX` otherwise. -/
def escapeByteChars (b : Nat) : List Char :=
  if b == 32 then ['+']
  else if queryUnreserved b then [Char.ofNat b]
  else ['%', hexDigitChar (b / 16), hexDigitChar (b % 16)]

/-- `url.QueryEscape` applied to a byte sequence. -/
def escapeBytes (bs : List Nat) : String :=
  ⟨(bs.map escapeByteChars).flatten⟩

/-- `url.QueryEscape` on a string: escape its UTF-8 bytes. -/
def queryEscape (s : String) : String :=
  escapeBytes (strBytes s)

/-- Value of a hex digit character, upper or lower case (Go's `unhex`). -/
def hexVal (c : Char) : Option Nat :=
  if 48 ≤ c.toNat ∧ c.toNat ≤ 57 then some (c.toNat - 48)
  else if 65 ≤ c.toNat ∧ c.toNat ≤ 70 then some (c.toNat - 55)
  else if 97 ≤ c.toNat ∧ c.toNat ≤ 102 then some (c.toNat - 87)
  else none

/-- `url.QueryUnescape` to bytes: `%XX` decoded, `+` to space, other
characters kept as their code; `none` on a malformed escape (Go's
`EscapeError`). -/
def percentDecode : List Char → Option (List Nat)
  | [] => some []
  | c :: rest =>
    if c = '%' then
      match rest with
      | a :: b :: rest2 =>
        match hexVal a, hexVal b with
        | some ha, some hb => (percentDecode rest2).map fun t => (16 * ha + hb) :: t
        | _, _ => none
      | _ => none
    else if c = '+' then (percentDecode rest).map fun t => 32 :: t
    else (percentDecode rest).map fun t => c.toNat :: t

/-- Split a character list at the first occurrence of `sep`: the part
before it, and — when `sep` occurs — the part after it. -/
def splitAtFirst (sep : Char) : List Char → List Char × Option (List Char)
  | [] => ([], none)
  | c :: cs =>
    if c = sep then ([], some cs)
    else
      let r := splitAtFirst sep cs
      (c :: r.1, r.2)

def splitListAux (sep : Char) : List Char → List Char → List (List Char)
  | [], cur => [cur.reverse]
  | c :: cs, cur =>
    if c = sep then cur.reverse :: splitListAux sep cs []
    else splitListAux sep cs (c :: cur)

/-- Split a character list on every occurrence of `sep`
(`strings.Split` behaviour: splitting the empty list gives one empty part). -/
def splitList (sep : Char) (l : List Char) : List (List Char) :=
  splitListAux sep l []

/-- One `key=value` part of a query string, as `url.ParseQuery`'s loop body
treats it: empty parts and parts containing `;` are skipped, the part is
split at its first `=`, and key and value are query-unescaped — a part whose
key or value fails to unescape is skipped (`u.Query()` discards the error
and keeps the rest). -/
def parsePart (part : List Char) : Option (List Nat × List Nat) :=
  if part.isEmpty then none
  else if part.contains ';' then none
  else
    let kv := splitAtFirst '=' part
    match percentDecode kv.1, percentDecode (kv.2.getD []) with
    | some kb, some vb => some (kb, vb)
    | _, _ => none

/-- `url.ParseQuery` as used through `u.Query()`: split the raw query on
`&` and parse each part. -/
def parseQuery (rawq : List Char) : List (List Nat × List Nat) :=
  (splitList '&' rawq).filterMap parsePart

/-- Lexicographic byte order, the order `sort.Strings` applies to the keys
in `url.Values.Encode`. -/
def bytesLe : List Nat → List Nat → Bool
  | [], _ => true
  | _ :: _, [] => false
  | x :: xs, y :: ys =>
    if x < y then true
    else if y < x then false
    else bytesLe xs ys

def insertSorted {α : Type} (le : α → α → Bool) (x : α) : List α → List α
  | [] => [x]
  | y :: ys => if le x y then x :: y :: ys else y :: insertSorted le x ys

def sortBy {α : Type} (le : α → α → Bool) (l : List α) : List α :=
  l.foldr (insertSorted le) []

/-- `url.Values.Encode`: keys sorted, each key's values in insertion order,
every key and value query-escaped, pairs joined with `&`. -/
def encodeQuery (ps : List (List Nat × List Nat)) : String :=
  let keys := sortBy bytesLe (ps.map Prod.fst).dedup
  let parts := (keys.map fun k =>
    ((ps.filter fun pr => pr.1 == k).map fun pr =>
      escapeBytes k ++ "=" ++ escapeBytes pr.2)).flatten
  String.intercalate "&" parts

/-- The login-hint value `fmt.Sprintf` builds:
the JSON object `\x7b"origin":"<origin>"\x7d`. -/
def originHintJSON (origin : String) : String :=
  "\x7b\"origin\":\"" ++ origin ++ "\"\x7d"

/-- `addLoginHintToURL` (config/config.go): parse the token URL, append a
`login_hint` parameter holding the origin JSON to its query values,
re-encode the query, reassemble the URL. -/
def addLoginHintToURL (tokenURL origin : String) : String :=
  let split := splitAtFirst '?' tokenURL.toList
  let q := parseQuery (split.2.getD [])
  let q2 := q ++ [(strBytes "login_hint", strBytes (originHintJSON origin))]
  ⟨split.1⟩ ++ "?" ++ encodeQuery q2

/-- `leadsWith n h` is true when the character list `n` is an initial segment
of `h` (used to ask whether one string occurs inside another). -/
def leadsWith : List Char → List Char → Bool
  | [], _ => true
  | _ :: _, [] => false
  | a :: as, b :: bs => a == b && leadsWith as bs

/-- `occursIn n h` is true when the character list `n` occurs contiguously
somewhere inside `h`. -/
def occursIn (needle : List Char) : List Char → Bool
  | [] => leadsWith needle []
  | b :: bs => leadsWith needle (b :: bs) || occursIn needle bs

/-! ## Config (config/config.go)

`http.Client` values are opaque handles: `.base` is the plain client built by
`configureHTTPClient`, `.authWrapped` the oauth2 transport wrapper that
`internal.NewAuthenticatedClient` puts around it. Network exchanges are
passed in as arguments: `RootResponse` is the answer to the one unauthenticated
GET of the API root that `globalAPIRoot` issues, and the password-grant token
exchange result is an `Except` argument. -/

inductive HClient where
  | base (id : Nat)
  | authWrapped (id : Nat)
  deriving DecidableEq, Repr

structure Token where
  accessToken : String
  refreshToken : String
  deriving DecidableEq, Repr

def GrantTypeRefreshToken : String := "refresh_token"
def GrantTypeClientCredentials : String := "client_credentials"
def GrantTypeAuthorizationCode : String := "authorization_code"
def DefaultRequestTimeout : Nat := 30
def DefaultUserAgent : String := "Go-CF-Client/3.0"
def DefaultClientID : String := "cf"
def DefaultSSHClientID : String := "ssh-proxy"

structure Config where
  apiEndpointURL : String := ""
  loginEndpointURL : String := ""
  uaaEndpointURL : String := ""
  sshOAuthClient : String := ""
  username : String := ""
  password : String := ""
  clientID : String := ""
  clientSecret : String := ""
  grantType : String := ""
  origin : String := ""
  scopes : List String := []
  oAuthToken : Option Token := none
  httpClient : Option HClient := none
  httpAuthClient : Option HClient := none
  skipTLSValidation : Bool := false
  requestTimeout : Nat := 0
  userAgent : String := ""
  deriving DecidableEq, Repr

/-- `Config.HTTPClient`: `return c.httpClient`. -/
def Config.HTTPClient (c : Config) : Option HClient := c.httpClient

/-- `Config.HTTPAuthClient`: the body at config.go:169 is `return c.httpClient`
(not `c.httpAuthClient`). -/
def Config.HTTPAuthClient (c : Config) : Option HClient := c.httpClient

/-- The `resource.Root` discovery links the code reads:
`root.Links.Login.Href`, `root.Links.Uaa.Href`,
`root.Links.AppSSH.Meta.OauthClient`. -/
structure Root where
  loginHref : String
  uaaHref : String
  appSSHOAuthClient : String
  deriving DecidableEq, Repr

/-- The backend's answer to the GET of the API root: transport failure from
`httpClient.Do` if any, otherwise a status code and the result of decoding
the body into `resource.Root`. -/
structure RootResponse where
  transportErr : Option String := none
  statusCode : Nat := 200
  body : Except String Root := .error ""
  deriving Repr

/-- Modelled from the spec: `internal.IsStatusSuccess` is not under `src/`;
§6 names 200/201/202 as the success statuses of the HTTP interface. -/
def isStatusSuccess (code : Nat) : Bool :=
  code == 200 || code == 201 || code == 202

/-- Modelled from the spec: `internal.DecodeError` is not under `src/`; it
turns a non-success response into an error value, modelled as a message
carrying the response status. -/
def respErrMsg (code : Nat) : String :=
  "unsuccessful response, status code: " ++ toString code

/-- `globalAPIRoot` (config/config.go): one GET of the API root; transport
failure, non-success status, and body-decode failure each yield an error. -/
def globalAPIRoot (resp : RootResponse) : Except String Root :=
  match resp.transportErr with
  | some e => .error ("error executing request, failed during HTTP request send: " ++ e)
  | none =>
    if ¬ isStatusSuccess resp.statusCode then .error (respErrMsg resp.statusCode)
    else
      match resp.body with
      | .error e => .error ("failed to decode API root response: " ++ e)
      | .ok root => .ok root

/-- `discoverAuthConfig` (config/config.go): return immediately when both
endpoint URLs are already configured; otherwise query the API root once and
fill the three discovery fields, wrapping any failure. -/
def discoverAuthConfig (c : Config) (resp : RootResponse) : Except String Config :=
  if c.loginEndpointURL ≠ "" ∧ c.uaaEndpointURL ≠ "" then .ok c
  else
    match globalAPIRoot resp with
    | .error e => .error ("error while discovering token service URL: " ++ e)
    | .ok root =>
      .ok { c with
        loginEndpointURL := root.loginHref,
        uaaEndpointURL := root.uaaHref,
        sshOAuthClient := root.appSSHOAuthClient }

/-- `Config.Validate` (config/config.go), `none` standing for a nil error. -/
def Config.Validate (c : Config) : Option String :=
  if c.clientID = "" ∧ c.username = "" ∧ c.oAuthToken = none then
    some "either client credentials, user credentials, or tokens are required"
  else if c.clientID ≠ DefaultClientID ∧ c.clientSecret = "" then
    some "client secret is required when using client credentials"
  else if c.username ≠ "" ∧ c.password = "" then
    some "password is required when using user credentials"
  else none

/-- `configureHTTPClient`: create a default base client when none was supplied.
(The TLS-skip, redirect-policy and timeout settings it also applies live on
`Config` and do not affect the claims; the handle stays `.base`.) -/
def configureHTTPClient (c : Config) : Config :=
  match c.httpClient with
  | none => { c with httpClient := some (.base 0) }
  | some _ => c

/-- `createHTTPAuthClient`: `c.httpAuthClient, err = internal.NewAuthenticatedClient(...)`.
Modelled from the spec: `internal.NewAuthenticatedClient` is not under `src/`;
§4.1 — it produces the authenticated (token-attaching) transport around the
base client, or fails; its outcome is the `result` argument. -/
def createHTTPAuthClient (c : Config) (result : Except String HClient) :
    Except String Config :=
  match result with
  | .error e => .error e
  | .ok hc => .ok { c with httpAuthClient := some hc }

def applyOptions : Config → List (Config → Except String Config) → Except String Config
  | c, [] => .ok c
  | c, o :: os =>
    match o c with
    | .error e => .error e
    | .ok c2 => applyOptions c2 os

/-- `initConfig` (config/config.go): apply options, validate, configure the
base client, discover the auth endpoints, then build the authenticated
client — failing fast at each stage. -/
def initConfig (cfg : Config) (options : List (Config → Except String Config))
    (rootResp : RootResponse) (authResult : Except String HClient) :
    Except String Config :=
  match applyOptions cfg options with
  | .error e => .error e
  | .ok c1 =>
    match c1.Validate with
    | some e => .error e
    | none =>
      let c2 := configureHTTPClient c1
      match discoverAuthConfig c2 rootResp with
      | .error e => .error e
      | .ok c3 => createHTTPAuthClient c3 authResult

/-- `strings.TrimRight(u.String(), "/")`. -/
def trimTrailingSlashes (s : String) : String :=
  ⟨(s.toList.reverse.dropWhile (fun c => c = '/')).reverse⟩

/-- `New` (config/config.go): defaults plus `initConfig`. (`url.Parse` of the
root URL only fails on control characters and is not modelled.) -/
def New (apiRootURL : String) (options : List (Config → Except String Config))
    (rootResp : RootResponse) (authResult : Except String HClient) :
    Except String Config :=
  let cfg : Config := {
    apiEndpointURL := trimTrailingSlashes apiRootURL,
    userAgent := DefaultUserAgent,
    requestTimeout := DefaultRequestTimeout,
    clientID := DefaultClientID,
    sshOAuthClient := DefaultSSHClientID }
  initConfig cfg options rootResp authResult

/-- The `oauth2.TokenSource` shapes the three grant branches build:
`.twoLegged` is `clientcredentials.Config.TokenSource` (lazy, no token yet),
`.threeLegged` is `oauth2.Config.TokenSource` seeded with an optional token. -/
inductive TokenSource where
  | twoLegged (clientID clientSecret tokenURL : String)
  | threeLegged (clientID clientSecret : String) (scopes : List String)
      (authURL tokenURL : String) (tok : Option Token)
  deriving DecidableEq, Repr

/-- `fmt.Errorf("unsupported OAuth2 grant type '%s'", c.grantType)` -/
def unsupportedGrantMsg (grantType : String) : String :=
  "unsupported OAuth2 grant type \x27" ++ grantType ++ "\x27"

/-- `Config.CreateOAuth2TokenSource` (config/config.go). `passwordExchange`
is the backend's answer to `PasswordCredentialsToken` — only consulted on the
`authorization_code` branch, which performs that exchange at construction. -/
def Config.CreateOAuth2TokenSource (c : Config)
    (passwordExchange : Except String Token) : Except String TokenSource :=
  if c.grantType = GrantTypeClientCredentials then
    .ok (.twoLegged c.clientID c.clientSecret c.uaaEndpointURL)
  else if c.grantType = GrantTypeAuthorizationCode then
    let tokenURL0 := c.uaaEndpointURL ++ "/oauth/token"
    let tokenURL :=
      if c.origin ≠ "" then addLoginHintToURL tokenURL0 c.origin else tokenURL0
    match passwordExchange with
    | .error e => .error e
    | .ok tok =>
      .ok (.threeLegged c.clientID c.clientSecret c.scopes
        (c.loginEndpointURL ++ "/oauth/auth") tokenURL (some tok))
  else if c.grantType = GrantTypeRefreshToken then
    .ok (.threeLegged c.clientID c.clientSecret c.scopes
      (c.loginEndpointURL ++ "/oauth/auth") (c.uaaEndpointURL ++ "/oauth/token")
      c.oAuthToken)
  else .error (unsupportedGrantMsg c.grantType)

/-! ## Push orchestrator (operation package)

`AppPushOperation.Push` itself is not under `src/` — only its test
`TestAppPush` is — so the orchestrator is modelled from the spec (§4.5, §8):
a strictly ordered sequence of steps, each backed by one backend interaction
whose outcome the oracle supplies; a failing step aborts all remaining
steps. -/

inductive PushStep where
  | orgLookup | spaceLookup | manifestApply | appLookup | packageCreate
  | bitsUpload | packagePoll | buildCreate | buildPoll | dropletLookup
  | dropletAssign | appStart
  deriving DecidableEq, Repr

/-- Modelled from the spec: the order §8 prescribes — org lookup, space
lookup, manifest-apply (202 then job polled to COMPLETE), app lookup,
package create, bits upload, package polled to READY, build create, build
polled to STAGED, droplet lookup, droplet assignment, start. -/
def pushOrder : List PushStep :=
  [.orgLookup, .spaceLookup, .manifestApply, .appLookup, .packageCreate,
   .bitsUpload, .packagePoll, .buildCreate, .buildPoll, .dropletLookup,
   .dropletAssign, .appStart]

/-- The outcome of a push: the steps that were executed, in order, and either
the value the last step produced or the failing step with its error. -/
structure PushOutcome (α : Type) where
  executed : List PushStep
  result : Except (PushStep × String) α
  deriving Repr

/-- Modelled from the spec: run the remaining steps in order against the
backend oracle; a step's failure aborts the rest (§4.5: "Each step that
fails aborts the remaining sequence immediately"). `last` carries the most
recent step's resource. -/
def runSteps (oracle : PushStep → Except String Nat) :
    List PushStep → List PushStep → Nat → PushOutcome Nat
  | [], done, last => ⟨done.reverse, .ok last⟩
  | s :: rest, done, _ =>
    match oracle s with
    | .error e => ⟨(s :: done).reverse, .error (s, e)⟩
    | .ok v => runSteps oracle rest (s :: done) v

/-- Modelled from the spec: `AppPushOperation.Push` is not under `src/`;
§4.5/§8 — execute the twelve steps in order and return the final application
resource (the value of the start call). -/
def push (oracle : PushStep → Except String Nat) : PushOutcome Nat :=
  runSteps oracle pushOrder [] 0

/-! ## AppManifest (operation/manifest.go)

Optional attributes are Go pointer fields with yaml `omitempty`; a nil
pointer is an omitted field, a non-nil pointer a present one — `Option` here.
`yamlKeys` is `yaml.Marshal` at the level of emitted keys: a field's tag
appears iff the pointer is non-nil (plus the mandatory `name` and the
`,inline` `AppManifestProcess` fields appended), in struct declaration
order. -/

/-- Opaque stand-in for the external `resource.Metadata`. -/
structure Metadata where
  tag : Nat := 0
  deriving DecidableEq, Repr

structure AppManifestDocker where
  image : Option String := none
  username : Option String := none
  deriving DecidableEq, Repr

structure AppManifestRoute where
  route : Option String := none
  protocol : Option String := none
  deriving DecidableEq, Repr

structure AppManifestService where
  name : Option String := none
  parameters : Option (List (String × String)) := none
  deriving DecidableEq, Repr

structure AppManifestSideCar where
  name : Option String := none
  processTypes : Option (List String) := none
  command : Option String := none
  memory : Option String := none
  deriving DecidableEq, Repr

structure AppManifestProcess where
  type : Option String := none
  command : Option String := none
  diskQuota : Option String := none
  healthCheckType : Option String := none
  healthCheckHTTPEndpoint : Option String := none
  healthCheckInvocationTimeout : Option Nat := none
  instances : Option Nat := none
  logRateLimitPerSecond : Option String := none
  memory : Option String := none
  timeout : Option Nat := none
  deriving DecidableEq, Repr

structure AppManifest where
  name : String
  path : Option String := none
  buildpacks : Option (List String) := none
  docker : Option AppManifestDocker := none
  env : Option (List (String × String)) := none
  randomRoute : Option Bool := none
  noRoute : Option Bool := none
  defaultRoute : Option Bool := none
  routes : Option (List AppManifestRoute) := none
  services : Option (List AppManifestService) := none
  sidecars : Option (List AppManifestSideCar) := none
  processes : Option (List AppManifestProcess) := none
  stack : Option String := none
  metadata : Option Metadata := none
  process : AppManifestProcess := {}
  deriving DecidableEq, Repr

/-- `NewAppManifest`: only the mandatory name is set. -/
def NewAppManifest (appName : String) : AppManifest :=
  { name := appName }

/-! The `With*` setters of `AppManifest` (manifest.go, lines 87-128). The
value-taking ones store the address of their argument (always non-nil);
`WithDocker` and `WithMetadata` take a pointer and store it as-is. -/

def AppManifest.withPath (a : AppManifest) (path : String) : AppManifest :=
  { a with path := some path }

def AppManifest.withBuildpacks (a : AppManifest) (buildpacks : List String) :
    AppManifest :=
  { a with buildpacks := some buildpacks }

def AppManifest.withDocker (a : AppManifest) (docker : Option AppManifestDocker) :
    AppManifest :=
  { a with docker := docker }

def AppManifest.withEnv (a : AppManifest) (env : List (String × String)) :
    AppManifest :=
  { a with env := some env }

def AppManifest.withRandomRoute (a : AppManifest) (randomRoute : Bool) :
    AppManifest :=
  { a with randomRoute := some randomRoute }

def AppManifest.withNoRoute (a : AppManifest) (noRoute : Bool) : AppManifest :=
  { a with noRoute := some noRoute }

def AppManifest.withDefaultRoute (a : AppManifest) (defaultRoute : Bool) :
    AppManifest :=
  { a with defaultRoute := some defaultRoute }

def AppManifest.withRoutes (a : AppManifest) (routes : List AppManifestRoute) :
    AppManifest :=
  { a with routes := some routes }

def AppManifest.withServices (a : AppManifest)
    (services : List AppManifestService) : AppManifest :=
  { a with services := some services }

def AppManifest.withSidecars (a : AppManifest)
    (sidecars : List AppManifestSideCar) : AppManifest :=
  { a with sidecars := some sidecars }

def AppManifest.withProcesses (a : AppManifest)
    (processes : List AppManifestProcess) : AppManifest :=
  { a with processes := some processes }

def AppManifest.withStack (a : AppManifest) (stack : String) : AppManifest :=
  { a with stack := some stack }

def AppManifest.withMetadata (a : AppManifest) (metadata : Option Metadata) :
    AppManifest :=
  { a with metadata := metadata }

def AppManifest.withAppManifestProcess (a : AppManifest)
    (appManifestProcess : AppManifestProcess) : AppManifest :=
  { a with process := appManifestProcess }

/-- Keys `yaml.Marshal` emits for the inline `AppManifestProcess`: each tag
iff its pointer field is non-nil, in declaration order. -/
def AppManifestProcess.yamlKeys (p : AppManifestProcess) : List String :=
  (if p.type.isSome then ["type"] else [])
  ++ (if p.command.isSome then ["command"] else [])
  ++ (if p.diskQuota.isSome then ["disk_quota"] else [])
  ++ (if p.healthCheckType.isSome then ["health-check-type"] else [])
  ++ (if p.healthCheckHTTPEndpoint.isSome then ["health-check-http-endpoint"] else [])
  ++ (if p.healthCheckInvocationTimeout.isSome then
        ["health-check-invocation-timeout"] else [])
  ++ (if p.instances.isSome then ["instances"] else [])
  ++ (if p.logRateLimitPerSecond.isSome then ["log-rate-limit-per-second"] else [])
  ++ (if p.memory.isSome then ["memory"] else [])
  ++ (if p.timeout.isSome then ["timeout"] else [])

/-- Keys `yaml.Marshal` emits for an `AppManifest`: the mandatory `name`
(no `omitempty`), each optional tag iff its pointer field is non-nil, in
declaration order, then the `,inline` process's keys. -/
def AppManifest.yamlKeys (a : AppManifest) : List String :=
  ["name"]
  ++ (if a.path.isSome then ["path"] else [])
  ++ (if a.buildpacks.isSome then ["buildpacks"] else [])
  ++ (if a.docker.isSome then ["docker"] else [])
  ++ (if a.env.isSome then ["env"] else [])
  ++ (if a.randomRoute.isSome then ["random-route"] else [])
  ++ (if a.noRoute.isSome then ["no-route"] else [])
  ++ (if a.defaultRoute.isSome then ["default-route"] else [])
  ++ (if a.routes.isSome then ["routes"] else [])
  ++ (if a.services.isSome then ["services"] else [])
  ++ (if a.sidecars.isSome then ["sidecars"] else [])
  ++ (if a.processes.isSome then ["processes"] else [])
  ++ (if a.stack.isSome then ["stack"] else [])
  ++ (if a.metadata.isSome then ["metadata"] else [])
  ++ a.process.yamlKeys

theorem listByQueryLoop_cons_continue {α : Type} (p : Page α) (rest : List (Page α))
    (acc : List α) (hs : p.statusCode = 200) (hd : p.decodeOk = true)
    (hn : p.nextHref ≠ "") :
    listByQueryLoop (p :: rest) acc = listByQueryLoop rest (acc ++ p.resources) := by
  simp [listByQueryLoop, hs, hd, hn]

theorem listByQueryLoop_chain {α : Type} (pages : List (Page α)) (acc : List α)
    (h : isChain pages = true) :
    listByQueryLoop pages acc = .ok (acc ++ (pages.map Page.resources).flatten) := by
  induction pages generalizing acc with
  | nil => simp [isChain] at h
  | cons p rest ih =>
    cases rest with
    | nil =>
      simp only [isChain, Bool.and_eq_true, beq_iff_eq] at h
      obtain ⟨⟨hs, hd⟩, hn⟩ := h
      simp [listByQueryLoop, hs, hd, hn]
    | cons q rest' =>
      simp only [isChain, Bool.and_eq_true, beq_iff_eq, bne_iff_ne, ne_eq] at h
      obtain ⟨⟨⟨hs, hd⟩, hn⟩, hc⟩ := h
      have hc' : isChain (q :: rest') = true := by
        simpa [isChain] using hc
      rw [listByQueryLoop_cons_continue p (q :: rest') acc hs hd hn, ih _ hc']
      simp

theorem listByQueryLoop_stop {α : Type} (p : Page α) (rest : List (Page α)) (acc : List α)
    (hs : p.statusCode = 200) (hd : p.decodeOk = true) (hn : p.nextHref = "") :
    listByQueryLoop (p :: rest) acc = .ok (acc ++ p.resources) := by
  simp [listByQueryLoop, hs, hd, hn]

/-- C1: for a collection split across N pages (every page 200/decodable, all
next hrefs non-empty except the last, which is empty), `ListByQuery` returns
the concatenation of all the pages' records in server order, each exactly
once; and the loop stops exactly at an empty next href — a page whose next
href is empty ends the walk no matter what responses would follow and no
matter what the records contain. -/
theorem listByQuery_paginates {α : Type} (pages : List (Page α))
    (p : Page α) (rest : List (Page α)) (acc : List α)
    (hchain : isChain pages = true)
    (hs : p.statusCode = 200) (hd : p.decodeOk = true) (hn : p.nextHref = "") :
    listByQuery pages = .ok (pages.map Page.resources).flatten ∧
      listByQueryLoop (p :: rest) acc = .ok (acc ++ p.resources) := by
  constructor
  · simpa [listByQuery] using listByQueryLoop_chain pages [] hchain
  · exact listByQueryLoop_stop p rest acc hs hd hn

theorem listByQuery_paginates_witness :
    listByQuery [Page.mk 200 true [10, 11] "/v3/security_groups?page=2",
        Page.mk 200 true [12] ""] = .ok [10, 11, 12] ∧
      listByQueryLoop [Page.mk (α := Nat) 200 true [12] "",
        Page.mk 200 true [99] "x"] [10, 11] = .ok [10, 11, 12] := by
  have h := listByQuery_paginates
    [Page.mk (α := Nat) 200 true [10, 11] "/v3/security_groups?page=2",
      Page.mk 200 true [12] ""]
    (Page.mk 200 true [12] "") [Page.mk 200 true [99] "x"] [10, 11]
    (by decide) rfl rfl rfl
  simpa using h

theorem listByQueryLoop_pre {α : Type} (pre tail : List (Page α)) (acc : List α)
    (hpre : ∀ q ∈ pre, q.statusCode = 200 ∧ q.decodeOk = true ∧ q.nextHref ≠ "") :
    listByQueryLoop (pre ++ tail) acc
      = listByQueryLoop tail (acc ++ (pre.map Page.resources).flatten) := by
  induction pre generalizing acc with
  | nil => simp
  | cons q pre' ih =>
    obtain ⟨hs, hd, hn⟩ := hpre q (by simp)
    rw [List.cons_append, listByQueryLoop_cons_continue q (pre' ++ tail) acc hs hd hn,
      ih _ fun r hr => hpre r (by simp [hr])]
    simp

theorem listByQueryLoop_head_status {α : Type} (p : Page α) (rest : List (Page α))
    (acc : List α) (h : p.statusCode ≠ 200) :
    listByQueryLoop (p :: rest) acc = .error (statusErrMsg p.statusCode) := by
  simp [listByQueryLoop, h]

theorem listByQueryLoop_head_decode {α : Type} (p : Page α) (rest : List (Page α))
    (acc : List α) (hs : p.statusCode = 200) (hd : p.decodeOk = false) :
    listByQueryLoop (p :: rest) acc = .error decodeErrMsg := by
  simp [listByQueryLoop, hs, hd]

/-- C2 counterexample: the claim says the error of a failed page "carries the
HTTP status and the URL that failed". Concretely: page 1 succeeds with next
href `/v3/security_groups?page=2`, the fetch of that second URL answers 500.
`ListByQuery` returns the error built by
`fmt.Errorf("error listing security groups, response code: %d", resp.StatusCode)`,
whose text carries the status `500` but does not contain the URL that failed,
refuting the "carrying ... the URL" part (the rest of the claim holds, see the
amended theorem). -/
theorem listByQuery_error_lacks_url :
    listByQuery [Page.mk (α := Nat) 200 true [1, 2] "/v3/security_groups?page=2",
        Page.mk 500 true [] ""]
      = .error "error listing security groups, response code: 500" ∧
    occursIn "500".toList
        "error listing security groups, response code: 500".toList = true ∧
    occursIn "/v3/security_groups?page=2".toList
        "error listing security groups, response code: 500".toList = false := by
  refine ⟨rfl, by decide, by decide⟩

/-- C2 amended: if any page of the walk answers a non-2xx status (the code in
fact aborts on anything other than 200), `ListByQuery` immediately returns an
error carrying the HTTP status — but not the failing URL — and no records at
all: earlier pages' records are discarded (all-or-nothing). A page whose body
fails to decode likewise aborts with an error and no partial results. -/
theorem listByQuery_aborts_all_or_nothing {α : Type} (pre : List (Page α))
    (p : Page α) (rest : List (Page α))
    (hpre : ∀ q ∈ pre, q.statusCode = 200 ∧ q.decodeOk = true ∧ q.nextHref ≠ "") :
    (p.statusCode ≠ 200 →
      listByQuery (pre ++ p :: rest) = .error (statusErrMsg p.statusCode)) ∧
    (p.statusCode = 200 → p.decodeOk = false →
      listByQuery (pre ++ p :: rest) = .error decodeErrMsg) := by
  constructor
  · intro h
    rw [listByQuery, listByQueryLoop_pre pre (p :: rest) [] hpre,
      listByQueryLoop_head_status p rest _ h]
  · intro hs hd
    rw [listByQuery, listByQueryLoop_pre pre (p :: rest) [] hpre,
      listByQueryLoop_head_decode p rest _ hs hd]

theorem listByQuery_aborts_all_or_nothing_witness :
    listByQuery [Page.mk (α := Nat) 200 true [1, 2] "p2",
        Page.mk 200 true [3] "p3", Page.mk 503 true [4] ""]
      = .error (statusErrMsg 503) ∧
    listByQuery [Page.mk (α := Nat) 200 true [1, 2] "p2",
        Page.mk 200 false [] ""] = .error decodeErrMsg := by
  constructor
  · exact (listByQuery_aborts_all_or_nothing
      [Page.mk 200 true [1, 2] "p2", Page.mk 200 true [3] "p3"]
      (Page.mk 503 true [4] "") [] (by decide)).1 (by decide)
  · exact (listByQuery_aborts_all_or_nothing
      [Page.mk 200 true [1, 2] "p2"]
      (Page.mk 200 false [] "") [] (by decide)).2 rfl rfl

/-! ### Lemmas about the query machinery, towards the login-hint theorem -/

theorem splitAtFirst_of_not_mem (sep : Char) (l : List Char) (h : sep ∉ l) :
    splitAtFirst sep l = (l, none) := by
  induction l with
  | nil => rfl
  | cons c cs ih =>
    have hc : c ≠ sep := fun hc => h (hc ▸ List.mem_cons_self c cs)
    have hcs : sep ∉ cs := fun hm => h (List.mem_cons_of_mem c hm)
    simp [splitAtFirst, hc, ih hcs]

theorem splitAtFirst_append (sep : Char) (a rest : List Char) (h : sep ∉ a) :
    splitAtFirst sep (a ++ sep :: rest) = (a, some rest) := by
  induction a with
  | nil => simp [splitAtFirst]
  | cons c cs ih =>
    have hc : c ≠ sep := fun hc => h (hc ▸ List.mem_cons_self c cs)
    have hcs : sep ∉ cs := fun hm => h (List.mem_cons_of_mem c hm)
    simp [splitAtFirst, hc, ih hcs]

theorem splitListAux_of_not_mem (sep : Char) (l cur : List Char) (h : sep ∉ l) :
    splitListAux sep l cur = [cur.reverse ++ l] := by
  induction l generalizing cur with
  | nil => simp [splitListAux]
  | cons c cs ih =>
    have hc : c ≠ sep := fun hc => h (hc ▸ List.mem_cons_self c cs)
    have hcs : sep ∉ cs := fun hm => h (List.mem_cons_of_mem c hm)
    simp [splitListAux, hc, ih _ hcs]

theorem splitList_of_not_mem (sep : Char) (l : List Char) (h : sep ∉ l) :
    splitList sep l = [l] := by
  simpa [splitList] using splitListAux_of_not_mem sep l [] h

theorem toNat_ofNat_small : ∀ b : Nat, b < 128 → (Char.ofNat b).toNat = b := by decide

theorem unreserved_char_ne : ∀ b : Nat, b < 128 → queryUnreserved b = true →
    Char.ofNat b ≠ '%' ∧ Char.ofNat b ≠ '+' ∧
    Char.ofNat b ≠ '&' ∧ Char.ofNat b ≠ '=' ∧ Char.ofNat b ≠ ';' := by decide

theorem queryUnreserved_lt (b : Nat) (h : queryUnreserved b = true) : b < 128 := by
  simp only [queryUnreserved, Bool.or_eq_true, Bool.and_eq_true, decide_eq_true_eq,
    beq_iff_eq] at h
  omega

theorem hexVal_hexDigitChar : ∀ n : Nat, n < 16 → hexVal (hexDigitChar n) = some n := by
  decide

theorem hexDigitChar_ne : ∀ n : Nat, n < 16 →
    hexDigitChar n ≠ '&' ∧ hexDigitChar n ≠ '=' ∧ hexDigitChar n ≠ ';' := by decide

theorem percentDecode_cons_other (c : Char) (rest : List Char)
    (h1 : c ≠ '%') (h2 : c ≠ '+') :
    percentDecode (c :: rest) = (percentDecode rest).map (fun t => c.toNat :: t) := by
  match rest with
  | [] =>
    rw [percentDecode.eq_3 c [] (by intro a b r h; simp at h)]
    simp [h1, h2]
  | [a] =>
    rw [percentDecode.eq_3 c [a] (by intro x y r h; simp at h)]
    simp [h1, h2]
  | a :: b :: rest2 =>
    rw [percentDecode.eq_2]
    simp [h1, h2]

theorem percentDecode_cons_plus (rest : List Char) :
    percentDecode ('+' :: rest) = (percentDecode rest).map (fun t => 32 :: t) := by
  match rest with
  | [] =>
    rw [percentDecode.eq_3 _ [] (by intro a b r h; simp at h)]
    simp
  | [a] =>
    rw [percentDecode.eq_3 _ [a] (by intro x y r h; simp at h)]
    simp
  | a :: b :: rest2 =>
    rw [percentDecode.eq_2]
    simp

theorem percentDecode_escapeByte (b : Nat) (h : b < 256) (rest : List Char) :
    percentDecode (escapeByteChars b ++ rest)
      = (percentDecode rest).map (fun t => b :: t) := by
  by_cases h32 : b = 32
  · subst h32
    show percentDecode ('+' :: rest) = _
    rw [percentDecode_cons_plus]
  · by_cases hu : queryUnreserved b = true
    · have hlt := queryUnreserved_lt b hu
      obtain ⟨hp, hpl, _, _, _⟩ := unreserved_char_ne b hlt hu
      have hb32 : (b == 32) = false := by simp [h32]
      simp only [escapeByteChars, hb32, Bool.false_eq_true, if_false, hu, if_true,
        List.cons_append, List.nil_append]
      rw [percentDecode_cons_other _ _ hp hpl, toNat_ofNat_small b hlt]
    · have hb32 : (b == 32) = false := by simp [h32]
      simp only [escapeByteChars, hb32, Bool.false_eq_true, if_false, hu,
        List.cons_append, List.nil_append]
      have h1 : hexVal (hexDigitChar (b / 16)) = some (b / 16) :=
        hexVal_hexDigitChar _ (by omega)
      have h2 : hexVal (hexDigitChar (b % 16)) = some (b % 16) :=
        hexVal_hexDigitChar _ (by omega)
      have hb : 16 * (b / 16) + b % 16 = b := by omega
      rw [percentDecode.eq_2]
      simp [h1, h2, hb]

theorem percentDecode_escapeBytes (bs : List Nat) (h : ∀ b ∈ bs, b < 256) :
    percentDecode (escapeBytes bs).data = some bs := by
  induction bs with
  | nil => rfl
  | cons b bs ih =>
    have hb := h b (by simp)
    have hbs : ∀ x ∈ bs, x < 256 := fun x hx => h x (by simp [hx])
    show percentDecode ((List.map escapeByteChars (b :: bs)).flatten) = some (b :: bs)
    rw [List.map_cons, List.flatten_cons, percentDecode_escapeByte b hb]
    have := ih hbs
    rw [show ((List.map escapeByteChars bs).flatten)
        = (escapeBytes bs).data from rfl, this]
    rfl

theorem escapeByteChars_sep_not_mem (b : Nat) (h : b < 256) :
    '&' ∉ escapeByteChars b ∧ '=' ∉ escapeByteChars b ∧ ';' ∉ escapeByteChars b := by
  by_cases h32 : (b == 32) = true
  · simp [escapeByteChars, h32]
  · by_cases hu : queryUnreserved b = true
    · have hlt := queryUnreserved_lt b hu
      obtain ⟨_, _, ha, he, hs⟩ := unreserved_char_ne b hlt hu
      have hh : escapeByteChars b = [Char.ofNat b] := by
        simp [escapeByteChars, h32, hu]
      rw [hh]
      refine ⟨fun hm => ?_, fun hm => ?_, fun hm => ?_⟩ <;>
        simp only [List.mem_singleton] at hm
      · exact ha hm.symm
      · exact he hm.symm
      · exact hs hm.symm
    · obtain ⟨a1, a2, a3⟩ := hexDigitChar_ne (b / 16) (by omega)
      obtain ⟨b1, b2, b3⟩ := hexDigitChar_ne (b % 16) (by omega)
      have hh : escapeByteChars b
          = ['%', hexDigitChar (b / 16), hexDigitChar (b % 16)] := by
        simp [escapeByteChars, h32, hu]
      rw [hh]
      refine ⟨fun hm => ?_, fun hm => ?_, fun hm => ?_⟩ <;>
        simp only [List.mem_cons, List.not_mem_nil, or_false] at hm
      · rcases hm with h1 | h1 | h1
        · exact absurd h1 (by decide)
        · exact a1 h1.symm
        · exact b1 h1.symm
      · rcases hm with h1 | h1 | h1
        · exact absurd h1 (by decide)
        · exact a2 h1.symm
        · exact b2 h1.symm
      · rcases hm with h1 | h1 | h1
        · exact absurd h1 (by decide)
        · exact a3 h1.symm
        · exact b3 h1.symm

theorem escapeBytes_sep_not_mem (bs : List Nat) (h : ∀ b ∈ bs, b < 256) :
    '&' ∉ (escapeBytes bs).data ∧ '=' ∉ (escapeBytes bs).data ∧
      ';' ∉ (escapeBytes bs).data := by
  have key : ∀ ch : Char, ch ∈ (escapeBytes bs).data → ∃ b ∈ bs, ch ∈ escapeByteChars b := by
    intro ch hm
    have hm2 : ch ∈ (List.map escapeByteChars bs).flatten := hm
    rw [List.mem_flatten] at hm2
    obtain ⟨l, hl, hcl⟩ := hm2
    rw [List.mem_map] at hl
    obtain ⟨b, hb, rfl⟩ := hl
    exact ⟨b, hb, hcl⟩
  refine ⟨fun hm => ?_, fun hm => ?_, fun hm => ?_⟩ <;>
    · obtain ⟨b, hb, hcl⟩ := key _ hm
      have := escapeByteChars_sep_not_mem b (h b hb)
      tauto

theorem utf8Bytes_lt (c : Char) : ∀ b ∈ utf8Bytes c, b < 256 := by
  intro b hb
  have hc : c.toNat < 1114112 := by
    have h : Nat.isValidChar c.toNat := c.valid
    rcases h with h | h <;> omega
  by_cases h1 : c.toNat < 0x80
  · simp [utf8Bytes, h1] at hb
    omega
  · by_cases h2 : c.toNat < 0x800
    · simp [utf8Bytes, h1, h2] at hb
      rcases hb with rfl | rfl <;> omega
    · by_cases h3 : c.toNat < 0x10000
      · simp [utf8Bytes, h1, h2, h3] at hb
        rcases hb with rfl | rfl | rfl <;> omega
      · simp [utf8Bytes, h1, h2, h3] at hb
        rcases hb with rfl | rfl | rfl | rfl <;> omega

theorem strBytes_lt (s : String) : ∀ b ∈ strBytes s, b < 256 := by
  intro b hb
  simp only [strBytes, List.mem_flatten] at hb
  obtain ⟨l, hl, hbl⟩ := hb
  rw [List.mem_map] at hl
  obtain ⟨c, _, rfl⟩ := hl
  exact utf8Bytes_lt c b hbl

theorem encodeQuery_single (k v : List Nat) :
    encodeQuery [(k, v)] = escapeBytes k ++ "=" ++ escapeBytes v := by
  simp [encodeQuery, sortBy, insertSorted, List.dedup, String.intercalate,
    String.intercalate.go, List.filter]

/-- Parsing the query string our encoder produced for the single `login_hint`
pair recovers exactly that one parameter. -/
theorem parseQuery_single (vb : List Nat) (hvb : ∀ b ∈ vb, b < 256) :
    parseQuery ("login_hint=" ++ escapeBytes vb).data
      = [(strBytes "login_hint", vb)] := by
  obtain ⟨hv1, hv2, hv3⟩ := escapeBytes_sep_not_mem vb hvb
  have hdata : ("login_hint=" ++ escapeBytes vb).data
      = "login_hint".data ++ '=' :: (escapeBytes vb).data := by
    rw [String.data_append]
    rfl
  have hamp : '&' ∉ ("login_hint=" ++ escapeBytes vb).data := by
    rw [hdata]
    intro hm
    rcases List.mem_append.1 hm with hm | hm
    · exact absurd hm (by decide)
    · rw [List.mem_cons] at hm
      rcases hm with hm | hm
      · exact absurd hm (by decide)
      · exact hv1 hm
  have hsemi : ';' ∉ "login_hint".data ++ '=' :: (escapeBytes vb).data := by
    intro hm
    rcases List.mem_append.1 hm with hm | hm
    · exact absurd hm (by decide)
    · rw [List.mem_cons] at hm
      rcases hm with hm | hm
      · exact absurd hm (by decide)
      · exact hv3 hm
  have hsplit : splitAtFirst '='
      ("login_hint".data ++ '=' :: (escapeBytes vb).data)
      = ("login_hint".data, some (escapeBytes vb).data) :=
    splitAtFirst_append '=' _ _ (by decide)
  have hk : percentDecode "login_hint".data = some (strBytes "login_hint") := rfl
  have hv : percentDecode (escapeBytes vb).data = some vb :=
    percentDecode_escapeBytes vb hvb
  have hempty : (("login_hint=" ++ escapeBytes vb).data).isEmpty = false := by
    rw [hdata]
    rfl
  have hcont : (("login_hint=" ++ escapeBytes vb).data).contains ';' = false := by
    simp only [List.contains, List.elem_eq_mem]
    rw [hdata]
    exact decide_eq_false hsemi
  have hpart : parsePart ("login_hint=" ++ escapeBytes vb).data
      = some (strBytes "login_hint", vb) := by
    rw [parsePart, hempty, hcont]
    simp only [Bool.false_eq_true, if_false]
    rw [hdata, hsplit]
    simp [hk, hv]
  rw [parseQuery, splitList_of_not_mem _ _ hamp, List.filterMap_cons, hpart,
    List.filterMap_nil]

/-- C7 counterexample: the claim quantifies over every token URL, but on a
token URL that already carries a query string `addLoginHintToURL` does not
"append exactly one query parameter login_hint ... preserving the rest of
the URL": `q.Add` keeps a pre-existing `login_hint` value, so the result
carries two `login_hint` parameters (the parsed query lists the key twice),
and `q.Encode()` re-emits the existing parameters in sorted key order, so
the query `?b=2&a=1` is not preserved in place. Both at concrete inputs. -/
theorem loginHint_existing_query_counterexample :
    addLoginHintToURL "https://uaa.example.org/oauth/token?login_hint=x" "okta"
      = "https://uaa.example.org/oauth/token?login_hint=x&login_hint=%7B%22origin%22%3A%22okta%22%7D" ∧
    (parseQuery
        ("login_hint=x&login_hint=%7B%22origin%22%3A%22okta%22%7D".toList)).map
        Prod.fst
      = [strBytes "login_hint", strBytes "login_hint"] ∧
    addLoginHintToURL "https://uaa.example.org/oauth/token?b=2&a=1" "okta"
      = "https://uaa.example.org/oauth/token?a=1&b=2&login_hint=%7B%22origin%22%3A%22okta%22%7D" ∧
    addLoginHintToURL "https://uaa.example.org/oauth/token?b=2&a=1" "okta"
      ≠ "https://uaa.example.org/oauth/token?b=2&a=1&login_hint=%7B%22origin%22%3A%22okta%22%7D" := by
  refine ⟨rfl, rfl, rfl, by decide⟩

/-- C7 amended: for a token URL without a query — the shape the call site
always builds (`uaaEndpointURL + "/oauth/token"`) — and a non-empty origin, the
`authorization_code` flow's `addLoginHintToURL` appends exactly one
`login_hint` query parameter whose value is the URL-escaped JSON object
`\x7b"origin":"<origin>"\x7d`, leaving the rest of the URL unchanged; parsing
the produced query back yields exactly that one parameter with exactly the
JSON object as value; and at the call site in `CreateOAuth2TokenSource` an
empty origin leaves the token URL unchanged while a non-empty origin routes
it through `addLoginHintToURL`. -/
theorem loginHint_appends_exactly_one (c : Config) (base origin : String)
    (tok : Token) (hbase : '?' ∉ base.toList)
    (hg : c.grantType = GrantTypeAuthorizationCode) :
    addLoginHintToURL base origin
      = base ++ "?login_hint=" ++ queryEscape (originHintJSON origin) ∧
    parseQuery ("login_hint=" ++ queryEscape (originHintJSON origin)).toList
      = [(strBytes "login_hint", strBytes (originHintJSON origin))] ∧
    (c.origin = "" →
      c.CreateOAuth2TokenSource (.ok tok)
        = .ok (.threeLegged c.clientID c.clientSecret c.scopes
            (c.loginEndpointURL ++ "/oauth/auth")
            (c.uaaEndpointURL ++ "/oauth/token") (some tok))) ∧
    (c.origin ≠ "" →
      c.CreateOAuth2TokenSource (.ok tok)
        = .ok (.threeLegged c.clientID c.clientSecret c.scopes
            (c.loginEndpointURL ++ "/oauth/auth")
            (addLoginHintToURL (c.uaaEndpointURL ++ "/oauth/token") c.origin)
            (some tok))) := by
  refine ⟨?_, ?_, ?_, ?_⟩
  · have hsp := splitAtFirst_of_not_mem '?' base.toList hbase
    have hlh : escapeBytes (strBytes "login_hint") = "login_hint" := rfl
    simp only [addLoginHintToURL, hsp, Option.getD, List.nil_append,
      encodeQuery_single, hlh]
    show (⟨base.toList⟩ : String) ++ "?"
        ++ ("login_hint" ++ "=" ++ escapeBytes (strBytes (originHintJSON origin))) = _
    apply String.ext
    simp [String.data_append, queryEscape]
  · exact parseQuery_single (strBytes (originHintJSON origin))
      (strBytes_lt (originHintJSON origin))
  · intro ho
    simp [Config.CreateOAuth2TokenSource, hg, GrantTypeClientCredentials,
      GrantTypeAuthorizationCode, ho]
  · intro ho
    simp [Config.CreateOAuth2TokenSource, hg, GrantTypeClientCredentials,
      GrantTypeAuthorizationCode, ho]

theorem loginHint_appends_exactly_one_witness :
    addLoginHintToURL "https://uaa.example.org/oauth/token" "okta"
      = "https://uaa.example.org/oauth/token" ++ "?login_hint="
        ++ queryEscape (originHintJSON "okta") ∧
    addLoginHintToURL "https://uaa.example.org/oauth/token" "okta"
      = "https://uaa.example.org/oauth/token?login_hint=%7B%22origin%22%3A%22okta%22%7D" ∧
    Config.CreateOAuth2TokenSource
        { grantType := "authorization_code", origin := "",
          uaaEndpointURL := "https://uaa.example.org" } (.ok ⟨"at", "rt"⟩)
      = .ok (.threeLegged "" "" [] "/oauth/auth"
          "https://uaa.example.org/oauth/token" (some ⟨"at", "rt"⟩)) := by
  have h := loginHint_appends_exactly_one
    { grantType := "authorization_code", origin := "",
      uaaEndpointURL := "https://uaa.example.org" }
    "https://uaa.example.org/oauth/token" "okta" ⟨"at", "rt"⟩
    (by decide) rfl
  refine ⟨h.1, h.1.trans (by rfl), ?_⟩
  simpa using h.2.2.1 rfl

theorem runSteps_all_ok (oracle : PushStep → Except String Nat)
    (f : PushStep → Nat) (hor : ∀ s, oracle s = .ok (f s)) :
    ∀ (steps : List PushStep) (done : List PushStep) (last : Nat),
      runSteps oracle steps done last
        = ⟨done.reverse ++ steps, .ok (steps.getLast?.elim last f)⟩ := by
  intro steps
  induction steps with
  | nil => intro done last; simp [runSteps]
  | cons s rest ih =>
    intro done last
    rw [runSteps, hor s]
    show runSteps oracle rest (s :: done) (f s) = _
    rw [ih (s :: done) (f s)]
    cases hr : rest with
    | nil => simp [runSteps]
    | cons t ts =>
      have h2 : (s :: rest).getLast? = rest.getLast? := by
        rw [hr]
        simp [List.getLast?_cons_cons]
      rw [← hr, h2]
      simp only [hr, List.cons_append]
      have hsome : ∃ x, (t :: ts).getLast? = some x := by
        cases hgl : (t :: ts).getLast? with
        | none => simp [List.getLast?_eq_none_iff] at hgl
        | some x => exact ⟨x, rfl⟩
      obtain ⟨x, hx⟩ := hsome
      rw [hx]
      simp

theorem runSteps_fails_at (oracle : PushStep → Except String Nat)
    (pre : List PushStep) (s : PushStep) (rest : List PushStep) (e : String)
    (hpre : ∀ t ∈ pre, ∃ v, oracle t = .ok v) (hs : oracle s = .error e) :
    ∀ (done : List PushStep) (last : Nat),
      runSteps oracle (pre ++ s :: rest) done last
        = ⟨done.reverse ++ pre ++ [s], .error (s, e)⟩ := by
  induction pre with
  | nil =>
    intro done last
    rw [List.nil_append, runSteps, hs]
    simp
  | cons t pre' ih =>
    intro done last
    obtain ⟨v, hv⟩ := hpre t (by simp)
    rw [List.cons_append, runSteps, hv]
    show runSteps oracle (pre' ++ s :: rest) (t :: done) v = _
    rw [ih (fun r hr => hpre r (by simp [hr])) (t :: done) v]
    simp

/-- C8: the modelled push orchestrator executes its steps in the strict
order organization lookup, space lookup, manifest-apply, application lookup,
package create, bits upload, package poll, build create, build poll, droplet
lookup, droplet assignment, start — none skipped or reordered — and when
every step succeeds it returns the final application resource, the value of
the start call; when some step fails (all earlier ones succeeding), exactly
the steps up to and including the failing one are executed, the remaining
ones are never issued, and the failure names the failing step and its
error. -/
theorem push_ordered_and_aborts (oracle : PushStep → Except String Nat)
    (f : PushStep → Nat) (pre : List PushStep) (s : PushStep)
    (rest : List PushStep) (e : String) :
    ((∀ t, oracle t = .ok (f t)) →
      push oracle = ⟨pushOrder, .ok (f .appStart)⟩) ∧
    (pushOrder = pre ++ s :: rest →
      (∀ t ∈ pre, ∃ v, oracle t = .ok v) → oracle s = .error e →
      push oracle = ⟨pre ++ [s], .error (s, e)⟩) := by
  constructor
  · intro hor
    rw [push, runSteps_all_ok oracle f hor pushOrder [] 0]
    rfl
  · intro horder hpre hs
    rw [push, horder, runSteps_fails_at oracle pre s rest e hpre hs [] 0]
    simp

theorem push_ordered_and_aborts_witness :
    push (fun _ => .ok 7) = ⟨pushOrder, .ok 7⟩ ∧
    push (fun s => if s = .buildPoll then .error "staging failed" else .ok 1)
      = ⟨[.orgLookup, .spaceLookup, .manifestApply, .appLookup, .packageCreate,
          .bitsUpload, .packagePoll, .buildCreate, .buildPoll],
         .error (.buildPoll, "staging failed")⟩ := by
  constructor
  · exact (push_ordered_and_aborts (fun _ => .ok 7) (fun _ => 7) [] .orgLookup []
      "e").1 (fun _ => rfl)
  · refine (push_ordered_and_aborts
      (fun s => if s = .buildPoll then .error "staging failed" else .ok 1)
      (fun _ => 1)
      [.orgLookup, .spaceLookup, .manifestApply, .appLookup, .packageCreate,
        .bitsUpload, .packagePoll, .buildCreate]
      .buildPoll [.dropletLookup, .dropletAssign, .appStart]
      "staging failed").2 rfl ?_ rfl
    intro t ht
    refine ⟨1, ?_⟩
    have hne : t ≠ .buildPoll := by
      rintro rfl
      simp at ht
    simp [hne]

theorem mem_ite_singleton {s k : String} {c : Prop} [Decidable c] :
    (s ∈ (if c then [k] else ([] : List String))) ↔ (c ∧ s = k) := by
  split <;> simp_all

/-- C9 counterexample: the claim says each `With*` setter "makes only its own
field non-nil". `WithDocker` stores the passed pointer as-is, so calling it
with a nil pointer leaves `Docker` nil and the `docker` key still omitted —
the field is not made non-nil. -/
theorem withDocker_nil_leaves_field_omitted :
    ((NewAppManifest "spring-music").withDocker none).docker = none ∧
    ((NewAppManifest "spring-music").withDocker none).docker.isSome = false ∧
    "docker" ∉ ((NewAppManifest "spring-music").withDocker none).yamlKeys := by
  refine ⟨rfl, rfl, by decide⟩

/-- C9 amended: yaml marshalling emits exactly the keys of non-nil optional
fields (plus the mandatory `name`), so "omitted" and "explicitly set" are
distinguishable; each value-taking `With*` setter makes exactly its own field
non-nil, pointing at the given value, leaving every other field unchanged —
while `WithDocker` and `WithMetadata`, whose parameter is already a pointer,
store that pointer as-is (nil stays nil), still leaving every other field
unchanged. -/
theorem appManifest_presence_and_setters (a : AppManifest) (p stack : String)
    (bp : List String) (d : Option AppManifestDocker)
    (env : List (String × String)) (b1 b2 b3 : Bool)
    (rs : List AppManifestRoute) (svcs : List AppManifestService)
    (scs : List AppManifestSideCar) (prcs : List AppManifestProcess)
    (m : Option Metadata) (pr : AppManifestProcess) :
    ("name" ∈ a.yamlKeys
      ∧ ("path" ∈ a.yamlKeys ↔ a.path.isSome)
      ∧ ("buildpacks" ∈ a.yamlKeys ↔ a.buildpacks.isSome)
      ∧ ("docker" ∈ a.yamlKeys ↔ a.docker.isSome)
      ∧ ("env" ∈ a.yamlKeys ↔ a.env.isSome)
      ∧ ("random-route" ∈ a.yamlKeys ↔ a.randomRoute.isSome)
      ∧ ("no-route" ∈ a.yamlKeys ↔ a.noRoute.isSome)
      ∧ ("default-route" ∈ a.yamlKeys ↔ a.defaultRoute.isSome)
      ∧ ("routes" ∈ a.yamlKeys ↔ a.routes.isSome)
      ∧ ("services" ∈ a.yamlKeys ↔ a.services.isSome)
      ∧ ("sidecars" ∈ a.yamlKeys ↔ a.sidecars.isSome)
      ∧ ("processes" ∈ a.yamlKeys ↔ a.processes.isSome)
      ∧ ("stack" ∈ a.yamlKeys ↔ a.stack.isSome)
      ∧ ("metadata" ∈ a.yamlKeys ↔ a.metadata.isSome)
      ∧ ("instances" ∈ a.yamlKeys ↔ a.process.instances.isSome)
      ∧ ("memory" ∈ a.yamlKeys ↔ a.process.memory.isSome)
      ∧ ("timeout" ∈ a.yamlKeys ↔ a.process.timeout.isSome)) ∧
    (a.withPath p = { a with path := some p }
      ∧ a.withBuildpacks bp = { a with buildpacks := some bp }
      ∧ a.withDocker d = { a with docker := d }
      ∧ a.withEnv env = { a with env := some env }
      ∧ a.withRandomRoute b1 = { a with randomRoute := some b1 }
      ∧ a.withNoRoute b2 = { a with noRoute := some b2 }
      ∧ a.withDefaultRoute b3 = { a with defaultRoute := some b3 }
      ∧ a.withRoutes rs = { a with routes := some rs }
      ∧ a.withServices svcs = { a with services := some svcs }
      ∧ a.withSidecars scs = { a with sidecars := some scs }
      ∧ a.withProcesses prcs = { a with processes := some prcs }
      ∧ a.withStack stack = { a with stack := some stack }
      ∧ a.withMetadata m = { a with metadata := m }
      ∧ a.withAppManifestProcess pr = { a with process := pr }) := by
  constructor
  · simp [AppManifest.yamlKeys, AppManifestProcess.yamlKeys, List.mem_append,
      mem_ite_singleton]
  · exact ⟨rfl, rfl, rfl, rfl, rfl, rfl, rfl, rfl, rfl, rfl, rfl, rfl, rfl, rfl⟩

/-- C3: contrary to its doc comment ("returns the authenticated http.Client")
and to the spec, `Config.HTTPAuthClient` returns `c.httpClient` — the
unauthenticated base client, the same value `Config.HTTPClient` returns — and
not the authenticated client that `createHTTPAuthClient` stored in
`c.httpAuthClient`. Evaluated on a config holding a base client and a distinct
authenticated wrapper. -/
theorem httpAuthClient_returns_base_client :
    Config.HTTPAuthClient
        { httpClient := some (.base 0), httpAuthClient := some (.authWrapped 0) }
      = some (.base 0) ∧
    Config.HTTPAuthClient
        { httpClient := some (.base 0), httpAuthClient := some (.authWrapped 0) }
      = Config.HTTPClient
        { httpClient := some (.base 0), httpAuthClient := some (.authWrapped 0) } ∧
    Config.HTTPAuthClient
        { httpClient := some (.base 0), httpAuthClient := some (.authWrapped 0) }
      ≠ Config.httpAuthClient
        { httpClient := some (.base 0), httpAuthClient := some (.authWrapped 0) } := by
  refine ⟨rfl, rfl, by decide⟩

/-- C4: `CreateOAuth2TokenSource` dispatches on the grant type to exactly one
of the three flows: `client_credentials` builds the two-legged source (lazily,
no exchange), `authorization_code` performs the username+password exchange at
construction — an exchange failure is returned as an error and no token source
is produced — `refresh_token` wraps the stored token pair; any other grant
type string yields the "unsupported OAuth2 grant type" error. -/
theorem createOAuth2TokenSource_dispatch (c : Config) (ex : Except String Token)
    (e : String) (tok : Token) :
    (c.grantType = GrantTypeClientCredentials →
      c.CreateOAuth2TokenSource ex
        = .ok (.twoLegged c.clientID c.clientSecret c.uaaEndpointURL)) ∧
    (c.grantType = GrantTypeAuthorizationCode → ex = .error e →
      c.CreateOAuth2TokenSource ex = .error e) ∧
    (c.grantType = GrantTypeAuthorizationCode → ex = .ok tok →
      c.CreateOAuth2TokenSource ex
        = .ok (.threeLegged c.clientID c.clientSecret c.scopes
            (c.loginEndpointURL ++ "/oauth/auth")
            (if c.origin ≠ "" then
              addLoginHintToURL (c.uaaEndpointURL ++ "/oauth/token") c.origin
             else c.uaaEndpointURL ++ "/oauth/token")
            (some tok))) ∧
    (c.grantType = GrantTypeRefreshToken →
      c.CreateOAuth2TokenSource ex
        = .ok (.threeLegged c.clientID c.clientSecret c.scopes
            (c.loginEndpointURL ++ "/oauth/auth")
            (c.uaaEndpointURL ++ "/oauth/token") c.oAuthToken)) ∧
    (c.grantType ≠ GrantTypeClientCredentials →
      c.grantType ≠ GrantTypeAuthorizationCode →
      c.grantType ≠ GrantTypeRefreshToken →
      c.CreateOAuth2TokenSource ex = .error (unsupportedGrantMsg c.grantType)) := by
  refine ⟨?_, ?_, ?_, ?_, ?_⟩
  · intro h
    simp [Config.CreateOAuth2TokenSource, h, GrantTypeClientCredentials]
  · intro h hex
    subst hex
    simp [Config.CreateOAuth2TokenSource, h, GrantTypeClientCredentials,
      GrantTypeAuthorizationCode]
  · intro h hex
    subst hex
    simp [Config.CreateOAuth2TokenSource, h, GrantTypeClientCredentials,
      GrantTypeAuthorizationCode]
  · intro h
    simp [Config.CreateOAuth2TokenSource, h, GrantTypeClientCredentials,
      GrantTypeAuthorizationCode, GrantTypeRefreshToken]
  · intro h1 h2 h3
    simp [Config.CreateOAuth2TokenSource, h1, h2, h3]

theorem createOAuth2TokenSource_dispatch_witness :
    Config.CreateOAuth2TokenSource { grantType := "password" } (.error "no wire")
      = .error (unsupportedGrantMsg "password") ∧
    Config.CreateOAuth2TokenSource
        { grantType := "authorization_code", username := "alice" }
        (.error "invalid credentials")
      = .error "invalid credentials" ∧
    Config.CreateOAuth2TokenSource
        { grantType := "client_credentials", clientID := "id", clientSecret := "sec",
          uaaEndpointURL := "https://uaa.example.org" }
        (.error "no wire")
      = .ok (.twoLegged "id" "sec" "https://uaa.example.org") := by
  refine ⟨?_, ?_, ?_⟩
  · exact (createOAuth2TokenSource_dispatch { grantType := "password" }
      (.error "no wire") "e" ⟨"a", "r"⟩).2.2.2.2 (by decide) (by decide) (by decide)
  · exact (createOAuth2TokenSource_dispatch
      { grantType := "authorization_code", username := "alice" }
      (.error "invalid credentials") "invalid credentials" ⟨"a", "r"⟩).2.1 rfl rfl
  · exact (createOAuth2TokenSource_dispatch
      { grantType := "client_credentials", clientID := "id", clientSecret := "sec",
        uaaEndpointURL := "https://uaa.example.org" }
      (.error "no wire") "e" ⟨"a", "r"⟩).1 rfl

/-- C5: when the login/UAA endpoints are not both pre-configured,
`discoverAuthConfig` issues the one unauthenticated GET of the API root:
a transport failure, a non-success status, and a body-decode failure each
make `globalAPIRoot` fail; that failure is wrapped as
"error while discovering token service URL: ..." with no retry (exactly one
response is consumed) and propagated out of `initConfig` (hence out of `New`);
on success the login URL, UAA URL and SSH OAuth client id are extracted from
the discovery links. -/
theorem discovery_failure_is_fatal (c cfg c1 : Config)
    (opts : List (Config → Except String Config)) (resp : RootResponse)
    (auth : Except String HClient) (e t d : String) (root : Root) :
    (resp.transportErr = some t →
      globalAPIRoot resp
        = .error ("error executing request, failed during HTTP request send: " ++ t)) ∧
    (resp.transportErr = none → isStatusSuccess resp.statusCode = false →
      globalAPIRoot resp = .error (respErrMsg resp.statusCode)) ∧
    (resp.transportErr = none → isStatusSuccess resp.statusCode = true →
      resp.body = .error d →
      globalAPIRoot resp = .error ("failed to decode API root response: " ++ d)) ∧
    (¬(c.loginEndpointURL ≠ "" ∧ c.uaaEndpointURL ≠ "") →
      globalAPIRoot resp = .error e →
      discoverAuthConfig c resp
        = .error ("error while discovering token service URL: " ++ e)) ∧
    (¬(c.loginEndpointURL ≠ "" ∧ c.uaaEndpointURL ≠ "") →
      globalAPIRoot resp = .ok root →
      discoverAuthConfig c resp
        = .ok { c with
            loginEndpointURL := root.loginHref,
            uaaEndpointURL := root.uaaHref,
            sshOAuthClient := root.appSSHOAuthClient }) ∧
    (applyOptions cfg opts = .ok c1 → c1.Validate = none →
      discoverAuthConfig (configureHTTPClient c1) resp = .error e →
      initConfig cfg opts resp auth = .error e) := by
  refine ⟨?_, ?_, ?_, ?_, ?_, ?_⟩
  · intro h
    simp [globalAPIRoot, h]
  · intro h hs
    simp [globalAPIRoot, h, hs]
  · intro h hs hb
    simp [globalAPIRoot, h, hs, hb]
  · intro h he
    simp [discoverAuthConfig, h, he]
  · intro h hr
    simp [discoverAuthConfig, h, hr]
  · intro ho hv hd
    simp [initConfig, ho, hv, hd]

theorem discovery_failure_is_fatal_witness :
    initConfig { clientID := "cf", oAuthToken := some ⟨"at", "rt"⟩ } []
        { transportErr := none, statusCode := 404, body := .error "" }
        (.ok (.authWrapped 1))
      = .error ("error while discovering token service URL: " ++ respErrMsg 404) := by
  have h1 := discovery_failure_is_fatal
    (configureHTTPClient { clientID := "cf", oAuthToken := some ⟨"at", "rt"⟩ })
    { clientID := "cf", oAuthToken := some ⟨"at", "rt"⟩ }
    { clientID := "cf", oAuthToken := some ⟨"at", "rt"⟩ } []
    { transportErr := none, statusCode := 404, body := .error "" }
    (.ok (.authWrapped 1)) (respErrMsg 404) "t" "d" ⟨"l", "u", "s"⟩
  have h2 := discovery_failure_is_fatal
    (configureHTTPClient { clientID := "cf", oAuthToken := some ⟨"at", "rt"⟩ })
    { clientID := "cf", oAuthToken := some ⟨"at", "rt"⟩ }
    { clientID := "cf", oAuthToken := some ⟨"at", "rt"⟩ } []
    { transportErr := none, statusCode := 404, body := .error "" }
    (.ok (.authWrapped 1))
    ("error while discovering token service URL: " ++ respErrMsg 404)
    "t" "d" ⟨"l", "u", "s"⟩
  exact h2.2.2.2.2.2 rfl rfl (h1.2.2.2.1 (by decide) (h1.2.1 rfl rfl))

/-- C6: when both the login endpoint URL and the UAA endpoint URL are already
non-empty, `discoverAuthConfig` returns the config unchanged (every field) and
its result does not depend on what the backend would have answered — no
request is made; the discovery fields are only ever populated by the one run
that finds them empty. -/
theorem discoverAuthConfig_skips_when_configured (c : Config)
    (r1 r2 : RootResponse)
    (h1 : c.loginEndpointURL ≠ "") (h2 : c.uaaEndpointURL ≠ "") :
    discoverAuthConfig c r1 = .ok c ∧
    discoverAuthConfig c r1 = discoverAuthConfig c r2 := by
  constructor <;> simp [discoverAuthConfig, h1, h2]

theorem discoverAuthConfig_skips_when_configured_witness :
    discoverAuthConfig
        { loginEndpointURL := "https://login.example.org",
          uaaEndpointURL := "https://uaa.example.org" }
        { transportErr := some "unreachable", statusCode := 500, body := .error "" }
      = .ok { loginEndpointURL := "https://login.example.org",
              uaaEndpointURL := "https://uaa.example.org" } := by
  exact (discoverAuthConfig_skips_when_configured
    { loginEndpointURL := "https://login.example.org",
      uaaEndpointURL := "https://uaa.example.org" }
    { transportErr := some "unreachable", statusCode := 500, body := .error "" }
    { transportErr := none, statusCode := 200, body := .error "" }
    (by decide) (by decide)).1

/-- C10: `Config.Validate` succeeds exactly when: one of client id, username
or OAuth token is present; a non-default client id comes with a client
secret; a username comes with a password. And `initConfig` (the body of
`New`) surfaces a validation error before any network activity: the result is
that error, whatever the discovery response and the auth-client build result
would have been. -/
theorem validate_iff_and_rejects_early (c cfg c1 : Config)
    (opts : List (Config → Except String Config)) (e : String)
    (r1 r2 : RootResponse) (a1 a2 : Except String HClient) :
    (c.Validate = none ↔
      (¬(c.clientID = "" ∧ c.username = "" ∧ c.oAuthToken = none)) ∧
      (c.clientID ≠ DefaultClientID → c.clientSecret ≠ "") ∧
      (c.username ≠ "" → c.password ≠ "")) ∧
    (applyOptions cfg opts = .ok c1 → c1.Validate = some e →
      initConfig cfg opts r1 a1 = .error e ∧
      initConfig cfg opts r1 a1 = initConfig cfg opts r2 a2) := by
  constructor
  · unfold Config.Validate
    split_ifs with h1 h2 h3
    · simp only [reduceCtorEq, false_iff]
      intro hr
      exact hr.1 h1
    · simp only [reduceCtorEq, false_iff]
      intro hr
      exact hr.2.1 h2.1 h2.2
    · simp only [reduceCtorEq, false_iff]
      intro hr
      exact hr.2.2 h3.1 h3.2
    · simp only [true_iff]
      push_neg at h2 h3
      exact ⟨h1, h2, h3⟩
  · intro ho hv
    constructor <;> simp [initConfig, ho, hv]

theorem validate_iff_and_rejects_early_witness :
    Config.Validate { clientID := "cf", username := "alice" }
      = some "password is required when using user credentials" ∧
    initConfig { clientID := "cf", username := "alice" } []
        { transportErr := none, statusCode := 200, body := .error "" }
        (.ok (.authWrapped 1))
      = .error "password is required when using user credentials" := by
  refine ⟨rfl, ?_⟩
  exact ((validate_iff_and_rejects_early { clientID := "cf", username := "alice" }
    { clientID := "cf", username := "alice" } { clientID := "cf", username := "alice" }
    [] "password is required when using user credentials"
    { transportErr := none, statusCode := 200, body := .error "" }
    { transportErr := some "x", statusCode := 500, body := .error "" }
    (.ok (.authWrapped 1)) (.error "boom")).2 rfl rfl).1

end CF
